import Mathlib

/-!
# Flight simulator core: vector algebra, rigid body integrator, airfoil lookup, atmosphere

Shallow embedding of `flight_sim.cc`.

Modelling conventions
* `float` is modelled as an element of an arbitrary linear ordered field `K` with a floor
  function (for instance `ℚ` or `ℝ`), so every arithmetic operation is exact.
* The `<cmath>` functions `std::sqrt`, `std::exp`, `std::asin` are not part of the repository;
  they are taken as a parameter `cmath K`, and theorems state what they need of them.
* `int` obtained by `static_cast<int>` is modelled as truncation towards zero into `Int`;
  `size_t` arithmetic is modelled on `Nat` modulo `2 ^ 64`.
* Out-of-bounds `std::vector` indexing is modelled as `none`.
-/

/-- The functions of `<cmath>` used by the program. -/
structure cmath (K : Type) where
  sqrt : K → K
  exp : K → K
  asin : K → K

/-- A `std::max(a, b)`: returns `b` when `a < b`, else `a`. -/
def std_max {K : Type} [LinearOrderedField K] (a b : K) : K :=
  if a < b then b else a

/-- A `std::min(a, b)`: returns `b` when `b < a`, else `a`. -/
def std_min {K : Type} [LinearOrderedField K] (a b : K) : K :=
  if b < a then b else a

/-- A `static_cast<int>(float)`: truncation towards zero. -/
def static_cast_int {K : Type} [LinearOrderedField K] [FloorRing K] (x : K) : Int :=
  if 0 ≤ x then Int.floor x else Int.ceil x

/-- The value `data.size() - 1` computed in the 64-bit unsigned `size_t`: it wraps around to
`2 ^ 64 - 1` for an empty vector. -/
def size_minus_one {α : Type} (data : List α) : Nat :=
  if data.length = 0 then 2 ^ 64 - 1 else data.length - 1

/-- A `data[i]` for an `int` index: `none` when the index is outside the vector. -/
def vector_at {α : Type} (data : List α) (i : Int) : Option α :=
  if i < 0 then none else data.get? i.toNat

namespace glm

/-- A `struct vec3`. -/
@[ext]
structure vec3 (K : Type) where
  x : K
  y : K
  z : K

/-- A `struct quat`. -/
@[ext]
structure quat (K : Type) where
  w : K
  x : K
  y : K
  z : K

/-- A `struct mat3`, entry `mRC` is `m[R][C]`. -/
@[ext]
structure mat3 (K : Type) where
  m00 : K
  m01 : K
  m02 : K
  m10 : K
  m11 : K
  m12 : K
  m20 : K
  m21 : K
  m22 : K

variable {K : Type} [LinearOrderedField K]

/-- The default-constructed `vec3{}`. -/
def vec3.zero : vec3 K := ⟨0, 0, 0⟩

/-- The default-constructed `quat{}`. -/
def quat.identity : quat K := ⟨1, 0, 0, 0⟩

/-- The constructor `quat(float w, const vec3& v)`. -/
def quat.ofScalarVec (w : K) (v : vec3 K) : quat K := ⟨w, v.x, v.y, v.z⟩

/-- The default-constructed `mat3{}`. -/
def mat3.identity : mat3 K := ⟨1, 0, 0, 0, 1, 0, 0, 0, 1⟩

/-- The constructor `mat3(std::initializer_list<float>)`: row-major fill, entries beyond the
list keep their identity default. -/
def mat3.ofList (values : List K) : mat3 K :=
  ⟨values.getD 0 1, values.getD 1 0, values.getD 2 0,
   values.getD 3 0, values.getD 4 1, values.getD 5 0,
   values.getD 6 0, values.getD 7 0, values.getD 8 1⟩

/-- The `operator+(vec3, vec3)` (also `operator+=`). -/
def vec3.add (left right : vec3 K) : vec3 K :=
  ⟨left.x + right.x, left.y + right.y, left.z + right.z⟩

/-- The `operator-(vec3, vec3)`. -/
def vec3.sub (left right : vec3 K) : vec3 K :=
  ⟨left.x - right.x, left.y - right.y, left.z - right.z⟩

/-- The unary `operator-(vec3)`. -/
def vec3.neg (value : vec3 K) : vec3 K :=
  ⟨-value.x, -value.y, -value.z⟩

/-- The `operator*(vec3, float)`. -/
def vec3.mul (value : vec3 K) (scalar : K) : vec3 K :=
  ⟨value.x * scalar, value.y * scalar, value.z * scalar⟩

/-- The `operator*(float, vec3)`. -/
def vec3.smul (scalar : K) (value : vec3 K) : vec3 K :=
  vec3.mul value scalar

/-- The `operator/(vec3, float)`. -/
def vec3.div (value : vec3 K) (scalar : K) : vec3 K :=
  ⟨value.x / scalar, value.y / scalar, value.z / scalar⟩

instance : Add (vec3 K) := ⟨vec3.add⟩
instance : Sub (vec3 K) := ⟨vec3.sub⟩
instance : Neg (vec3 K) := ⟨vec3.neg⟩
instance : HMul (vec3 K) K (vec3 K) := ⟨vec3.mul⟩
instance : HMul K (vec3 K) (vec3 K) := ⟨vec3.smul⟩
instance : HDiv (vec3 K) K (vec3 K) := ⟨vec3.div⟩

/-- The function `dot`. -/
def dot (left right : vec3 K) : K :=
  left.x * right.x + left.y * right.y + left.z * right.z

/-- The function `cross`. -/
def cross (left right : vec3 K) : vec3 K :=
  ⟨left.y * right.z - left.z * right.y,
   left.z * right.x - left.x * right.z,
   left.x * right.y - left.y * right.x⟩

/-- The function `length`. -/
def length (m : cmath K) (value : vec3 K) : K :=
  m.sqrt (dot value value)

/-- The function `normalize(vec3)`. -/
def normalize (m : cmath K) (value : vec3 K) : vec3 K :=
  let len := length m value
  if len ≤ 0 then vec3.zero else value / len

/-- The `operator*(quat, quat)`. -/
def quat.mul (left right : quat K) : quat K :=
  ⟨left.w * right.w - left.x * right.x - left.y * right.y - left.z * right.z,
   left.w * right.x + left.x * right.w + left.y * right.z - left.z * right.y,
   left.w * right.y - left.x * right.z + left.y * right.w + left.z * right.x,
   left.w * right.z + left.x * right.y - left.y * right.x + left.z * right.w⟩

instance : Mul (quat K) := ⟨quat.mul⟩

/-- The `operator*(quat, vec3)`: rotation of a vector by a quaternion. -/
def quat.rotate (q : quat K) (v : vec3 K) : vec3 K :=
  let vq : quat K := quat.ofScalarVec 0 v
  let inv : quat K := ⟨q.w, -q.x, -q.y, -q.z⟩
  let rotated : quat K := q * vq * inv
  ⟨rotated.x, rotated.y, rotated.z⟩

/-- The `operator+(quat, quat)`. -/
def quat.add (left right : quat K) : quat K :=
  ⟨left.w + right.w, left.x + right.x, left.y + right.y, left.z + right.z⟩

/-- The `operator*(quat, float)`. -/
def quat.scale (q : quat K) (scalar : K) : quat K :=
  ⟨q.w * scalar, q.x * scalar, q.y * scalar, q.z * scalar⟩

instance : HMul (quat K) (vec3 K) (vec3 K) := ⟨quat.rotate⟩
instance : Add (quat K) := ⟨quat.add⟩
instance : HMul (quat K) K (quat K) := ⟨quat.scale⟩

/-- The function `normalize(quat)`. -/
def normalize_quat (m : cmath K) (q : quat K) : quat K :=
  let len := m.sqrt (q.w * q.w + q.x * q.x + q.y * q.y + q.z * q.z)
  if len ≤ 0 then quat.identity else ⟨q.w / len, q.x / len, q.y / len, q.z / len⟩

/-- The function `inverse(quat)`: the conjugate. -/
def inverse (q : quat K) : quat K :=
  ⟨q.w, -q.x, -q.y, -q.z⟩

/-- The function `degrees`. -/
def degrees (radians : K) : K :=
  radians * (180 / 3.14159265358979323846)

/-- The function `clamp`. -/
def clamp (value min_value max_value : K) : K :=
  std_max min_value (std_min value max_value)

/-- The `operator*(mat3, vec3)`. -/
def mat3.mulVec (mat : mat3 K) (v : vec3 K) : vec3 K :=
  ⟨mat.m00 * v.x + mat.m01 * v.y + mat.m02 * v.z,
   mat.m10 * v.x + mat.m11 * v.y + mat.m12 * v.z,
   mat.m20 * v.x + mat.m21 * v.y + mat.m22 * v.z⟩

instance : HMul (mat3 K) (vec3 K) (vec3 K) := ⟨mat3.mulVec⟩

end glm

namespace phi

variable {K : Type} [LinearOrderedField K]

/-- The constant `phi::PI`. -/
def PI : K := 3.14159265358979323846

/-- The constant `phi::FORWARD`. -/
def FORWARD : glm.vec3 K := ⟨1, 0, 0⟩

/-- The constant `phi::RIGHT`. -/
def RIGHT : glm.vec3 K := ⟨0, 0, 1⟩

/-- The function `phi::sq`. -/
def sq (value : K) : K := value * value

/-- A `class RigidBody`. -/
@[ext]
structure RigidBody (K : Type) where
  m_force : glm.vec3 K
  m_torque : glm.vec3 K
  mass : K
  position : glm.vec3 K
  orientation : glm.quat K
  velocity : glm.vec3 K
  angular_velocity : glm.vec3 K
  inertia : glm.mat3 K
  inverse_inertia : glm.mat3 K
  apply_gravity : Bool

/-- The default member initialisers of `RigidBody`. -/
def RigidBody.init : RigidBody K :=
  { m_force := glm.vec3.zero, m_torque := glm.vec3.zero, mass := 1,
    position := glm.vec3.zero, orientation := glm.quat.identity,
    velocity := glm.vec3.zero, angular_velocity := glm.vec3.zero,
    inertia := glm.mat3.identity, inverse_inertia := glm.mat3.identity,
    apply_gravity := true }

/-- The method `transform_direction`. -/
def RigidBody.transform_direction (rb : RigidBody K) (direction : glm.vec3 K) : glm.vec3 K :=
  rb.orientation * direction

/-- The method `inverse_transform_direction`. -/
def RigidBody.inverse_transform_direction (rb : RigidBody K) (direction : glm.vec3 K) :
    glm.vec3 K :=
  glm.inverse rb.orientation * direction

/-- The method `get_point_velocity`. -/
def RigidBody.get_point_velocity (rb : RigidBody K) (point : glm.vec3 K) : glm.vec3 K :=
  rb.inverse_transform_direction rb.velocity + glm.cross rb.angular_velocity point

/-- The method `add_force_at_point`. -/
def RigidBody.add_force_at_point (rb : RigidBody K) (force point : glm.vec3 K) : RigidBody K :=
  { rb with
    m_force := rb.m_force + rb.transform_direction force
    m_torque := rb.m_torque + glm.cross point force }

/-- The method `add_relative_force`. -/
def RigidBody.add_relative_force (rb : RigidBody K) (force : glm.vec3 K) : RigidBody K :=
  { rb with m_force := rb.m_force + rb.transform_direction force }

/-- The method `RigidBody::update`. -/
def RigidBody.update (m : cmath K) (rb : RigidBody K) (dt : K) : RigidBody K :=
  let acceleration0 : glm.vec3 K := rb.m_force / rb.mass
  let acceleration : glm.vec3 K :=
    if rb.apply_gravity then
      { acceleration0 with y := acceleration0.y - 9.81 }
    else acceleration0
  let velocity := rb.velocity + acceleration * dt
  let position := rb.position + velocity * dt
  let angular_velocity := rb.angular_velocity +
    (rb.inverse_inertia *
      (rb.m_torque - glm.cross rb.angular_velocity (rb.inertia * rb.angular_velocity))) * dt
  let orientation1 := rb.orientation +
    (rb.orientation * glm.quat.ofScalarVec 0 angular_velocity) * ((0.5 : K) * dt)
  let orientation := glm.normalize_quat m orientation1
  { rb with
    velocity := velocity
    position := position
    angular_velocity := angular_velocity
    orientation := orientation
    m_force := glm.vec3.zero
    m_torque := glm.vec3.zero }

/-- The state after `n` consecutive calls of `RigidBody::update(dt)`. -/
def RigidBody.update_n (m : cmath K) (dt : K) : Nat → RigidBody K → RigidBody K
  | 0, rb => rb
  | n + 1, rb => RigidBody.update_n m dt n (RigidBody.update m rb dt)

end phi

namespace isa

variable {K : Type} [LinearOrderedField K]

/-- The function `isa::get_air_density`. -/
def get_air_density (m : cmath K) (altitude_meters : K) : K :=
  let sea_level_density : K := 1.225
  let density := sea_level_density * m.exp (-altitude_meters / 8500)
  std_max 0 density

end isa

section airfoil

variable {K : Type} [LinearOrderedField K]

/-- The free function `scale`. -/
def scale (value in_min in_max out_min out_max : K) : K :=
  if in_max ≤ in_min then out_min
  else
    let t := (value - in_min) / (in_max - in_min)
    out_min + t * (out_max - out_min)

/-- A `struct Airfoil`. -/
structure Airfoil (K : Type) where
  min_alpha : K
  max_alpha : K
  data : List (glm.vec3 K)
  cl_max : K

/-- The constructor `Airfoil(curve)`; `front()` and `back()` need a non-empty curve. -/
def Airfoil.new (curve : List (glm.vec3 K)) (h : curve ≠ []) : Airfoil K :=
  { min_alpha := (curve.head h).x
    max_alpha := (curve.getLast h).x
    data := curve
    cl_max := 1.2 }

/-- The integer index `i` computed in `Airfoil::sample`. -/
def Airfoil.sample_index [FloorRing K] (a : Airfoil K) (alpha : K) : Int :=
  let index := scale alpha a.min_alpha a.max_alpha 0 ((size_minus_one a.data : Nat) : K)
  static_cast_int (glm.clamp index 0 ((size_minus_one a.data : Nat) : K))

/-- The method `Airfoil::sample`. -/
def Airfoil.sample [FloorRing K] (a : Airfoil K) (alpha : K) : Option (K × K) :=
  match vector_at a.data (a.sample_index alpha) with
  | some row => some (row.y, row.z)
  | none => none

end airfoil

section vehicle

variable {K : Type} [LinearOrderedField K]

/-- A `struct Wing`; the `const Airfoil*` is `none` for a null pointer. -/
structure Wing (K : Type) where
  airfoil : Option (Airfoil K)
  center_of_pressure : glm.vec3 K
  area : K
  chord : K
  wingspan : K
  normal : glm.vec3 K
  aspect_ratio : K
  flap_ratio : K
  efficiency_factor : K
  control_input : K

/-- The constructor `Wing(position, span, chord_length, airfoil, normal, flap_ratio)`. -/
def Wing.new (position : glm.vec3 K) (span chord_length : K) (airfoil_value : Option (Airfoil K))
    (normal_value : glm.vec3 K) (flap_ratio_value : K) : Wing K :=
  { airfoil := airfoil_value
    center_of_pressure := position
    area := span * chord_length
    chord := chord_length
    wingspan := span
    normal := normal_value
    aspect_ratio := phi.sq span / (span * chord_length)
    flap_ratio := flap_ratio_value
    efficiency_factor := 0.9
    control_input := 0 }

/-- The method `Wing::set_control_input`. -/
def Wing.set_control_input (w : Wing K) (input : K) : Wing K :=
  { w with control_input := glm.clamp input (-1) 1 }

/-- The body-frame force handed to `add_force_at_point` by `Wing::apply_force` once the null
and the airspeed guards are passed; `none` when the airfoil lookup is out of bounds. -/
def Wing.aero_force [FloorRing K] (m : cmath K) (w : Wing K) (airfoil : Airfoil K)
    (rigid_body : phi.RigidBody K) (local_velocity : glm.vec3 K) (speed : K) :
    Option (glm.vec3 K) :=
  let drag_direction := glm.normalize m (-local_velocity)
  let lift_direction :=
    glm.normalize m (glm.cross (glm.cross drag_direction w.normal) drag_direction)
  let angle_of_attack := glm.degrees (m.asin (glm.dot drag_direction w.normal))
  match airfoil.sample angle_of_attack with
  | none => none
  | some (lift_coeff0, drag_coeff0) =>
    let lift_coeff :=
      if 0 < w.flap_ratio then
        lift_coeff0 + m.sqrt w.flap_ratio * airfoil.cl_max * w.control_input
      else lift_coeff0
    let induced_drag_coeff := phi.sq lift_coeff / (phi.PI * w.aspect_ratio * w.efficiency_factor)
    let drag_coeff := drag_coeff0 + induced_drag_coeff
    let air_density := isa.get_air_density m rigid_body.position.y
    let dynamic_pressure := 0.5 * phi.sq speed * air_density * w.area
    let lift := lift_direction * lift_coeff * dynamic_pressure
    let drag := drag_direction * drag_coeff * dynamic_pressure
    some (lift + drag)

/-- The method `Wing::apply_force`; `none` when the airfoil lookup is out of bounds. -/
def Wing.apply_force [FloorRing K] (m : cmath K) (w : Wing K) (rigid_body : phi.RigidBody K)
    (_dt : K) : Option (phi.RigidBody K) :=
  match w.airfoil with
  | none => some rigid_body
  | some airfoil =>
    let local_velocity := rigid_body.get_point_velocity w.center_of_pressure
    let speed := glm.length m local_velocity
    if speed ≤ 1 then some rigid_body
    else
      match w.aero_force m airfoil rigid_body local_velocity speed with
      | none => none
      | some force => some (rigid_body.add_force_at_point force w.center_of_pressure)

/-- The local `drag_direction` of `Wing::apply_force`, from the local airflow velocity. -/
def Wing.drag_direction (m : cmath K) (local_velocity : glm.vec3 K) : glm.vec3 K :=
  glm.normalize m (-local_velocity)

/-- The local `lift_direction` of `Wing::apply_force`, from the local airflow velocity. -/
def Wing.lift_direction (m : cmath K) (w : Wing K) (local_velocity : glm.vec3 K) : glm.vec3 K :=
  glm.normalize m
    (glm.cross (glm.cross (Wing.drag_direction m local_velocity) w.normal)
      (Wing.drag_direction m local_velocity))

/-- A `struct Engine`. -/
structure Engine (K : Type) where
  throttle : K
  thrust : K

/-- The constructor `Engine(thrust_value)`. -/
def Engine.new (thrust_value : K) : Engine K :=
  { throttle := 1, thrust := thrust_value }

/-- The method `Engine::apply_force`. -/
def Engine.apply_force (e : Engine K) (rigid_body : phi.RigidBody K) : phi.RigidBody K :=
  rigid_body.add_relative_force ((phi.FORWARD : glm.vec3 K) * (e.throttle * e.thrust))

/-- A `struct Airplane`: the `RigidBody` base class is the field `body`. -/
structure Airplane (K : Type) where
  body : phi.RigidBody K
  engine : Engine K
  elements : List (Wing K)

/-- The constructor `Airplane(mass, thrust, inertia, wings)`. -/
def Airplane.new (mass_value thrust_value : K) (inertia_value : glm.mat3 K)
    (wings : List (Wing K)) : Airplane K :=
  { body := { (phi.RigidBody.init : phi.RigidBody K) with
      mass := mass_value
      inertia := inertia_value
      inverse_inertia := inertia_value }
    engine := Engine.new thrust_value
    elements := wings }

/-- The loop `for (auto& wing : elements) wing.apply_force(this, dt)`. -/
def apply_wings [FloorRing K] (m : cmath K) (dt : K) :
    List (Wing K) → phi.RigidBody K → Option (phi.RigidBody K)
  | [], rb => some rb
  | w :: ws, rb =>
    match w.apply_force m rb dt with
    | none => none
    | some rb1 => apply_wings m dt ws rb1

/-- The method `Airplane::update`. -/
def Airplane.update [FloorRing K] (m : cmath K) (a : Airplane K) (dt : K) :
    Option (Airplane K) :=
  match apply_wings m dt a.elements (a.engine.apply_force a.body) with
  | none => none
  | some rb => some { a with body := phi.RigidBody.update m rb dt }

end vehicle

section fuel_tank

variable {K : Type} [LinearOrderedField K]

/-- A `std::clamp(v, lo, hi)`: `lo` when `v < lo`, else `hi` when `hi < v`, else `v`. -/
def std_clamp (v lo hi : K) : K :=
  if v < lo then lo else if hi < v then hi else v

/-- A `class FuelTank`. -/
structure FuelTank (K : Type) where
  capacity_liters_ : K
  level_liters_ : K

/-- The constructor `FuelTank(capacity_liters, initial_liters)`. -/
def FuelTank.new (capacity_liters initial_liters : K) : FuelTank K :=
  { capacity_liters_ := capacity_liters
    level_liters_ := std_clamp initial_liters 0 capacity_liters }

/-- The method `FuelTank::capacity`. -/
def FuelTank.capacity (t : FuelTank K) : K := t.capacity_liters_

/-- The method `FuelTank::level`. -/
def FuelTank.level (t : FuelTank K) : K := t.level_liters_

/-- The method `FuelTank::percent_full`. -/
def FuelTank.percent_full (t : FuelTank K) : K :=
  if t.capacity_liters_ ≤ 0 then 0
  else (t.level_liters_ / t.capacity_liters_) * 100

/-- The method `FuelTank::add_fuel`. -/
def FuelTank.add_fuel (t : FuelTank K) (liters : K) : FuelTank K :=
  { t with level_liters_ := std_min t.capacity_liters_ (t.level_liters_ + liters) }

/-- The method `FuelTank::consume_fuel`: the returned amount and the tank afterwards. -/
def FuelTank.consume_fuel (t : FuelTank K) (liters : K) : K × FuelTank K :=
  let consumed := std_min t.level_liters_ liters
  (consumed, { t with level_liters_ := t.level_liters_ - consumed })

/-- A call on a fuel tank: `add_fuel(liters)` or `consume_fuel(liters)`. -/
inductive FuelCall (K : Type) where
  | add_fuel (liters : K) : FuelCall K
  | consume_fuel (liters : K) : FuelCall K

/-- The amount passed to a call. -/
def FuelCall.liters : FuelCall K → K
  | FuelCall.add_fuel l => l
  | FuelCall.consume_fuel l => l

/-- The tank after one call. -/
def FuelTank.call (t : FuelTank K) : FuelCall K → FuelTank K
  | FuelCall.add_fuel l => t.add_fuel l
  | FuelCall.consume_fuel l => (t.consume_fuel l).2

/-- The tank after a sequence of calls, first call first. -/
def FuelTank.run (t : FuelTank K) (calls : List (FuelCall K)) : FuelTank K :=
  calls.foldl FuelTank.call t

end fuel_tank

/-- The `<cmath>` square root is exact: `sqrt x` is the non-negative root of `x >= 0`. -/
def cmath.sqrt_exact {K : Type} [LinearOrderedField K] (m : cmath K) : Prop :=
  ∀ x : K, 0 ≤ x → 0 ≤ m.sqrt x ∧ m.sqrt x * m.sqrt x = x

/-- The `<cmath>` exponential is positive, strictly increasing and `exp 0 = 1`. -/
def cmath.exp_exact {K : Type} [LinearOrderedField K] (m : cmath K) : Prop :=
  m.exp 0 = 1 ∧ (∀ x : K, 0 < m.exp x) ∧ ∀ x y : K, x < y → m.exp x < m.exp y

/-! ## Witness data -/

/-- A `cmath` over `ℚ` for evaluating concrete runs: `sqrt` is `Rat.sqrt` (exact on squares of
rationals), `exp` and `asin` are only given their value at `0`. -/
def cmath_rat : cmath ℚ :=
  { sqrt := Rat.sqrt
    exp := fun x => if x = 0 then 1 else 0
    asin := fun x => if x = 0 then 0 else x }

/-- A body at rest at `(1, 2, 3)` with gravity enabled. -/
def body_at_rest : phi.RigidBody ℚ :=
  { (phi.RigidBody.init : phi.RigidBody ℚ) with position := ⟨1, 2, 3⟩ }

/-- A body at rest at `(1, 2, 3)` with gravity disabled. -/
def body_no_gravity : phi.RigidBody ℚ :=
  { (phi.RigidBody.init : phi.RigidBody ℚ) with position := ⟨1, 2, 3⟩, apply_gravity := false }

/-- A two-row table whose rows share the angle `0`. -/
def flat_curve : List (glm.vec3 ℚ) := [⟨0, 1, 2⟩, ⟨0, 3, 4⟩]

/-- The table `NACA_0012_data` of the program. -/
def NACA_0012_data : List (glm.vec3 ℚ) :=
  [⟨-10, -0.6, 0.08⟩, ⟨0, 0, 0.02⟩, ⟨10, 0.6, 0.08⟩]

/-- The table `NACA_2412_data` of the program. -/
def NACA_2412_data : List (glm.vec3 ℚ) :=
  [⟨-10, -0.5, 0.07⟩, ⟨0, 0.1, 0.025⟩, ⟨10, 0.8, 0.09⟩]

/-- A body moving at exactly `1` m/s along its forward axis, identity orientation. -/
def body_unit_speed : phi.RigidBody ℚ :=
  { (phi.RigidBody.init : phi.RigidBody ℚ) with velocity := ⟨1, 0, 0⟩ }

/-- The first wing of the program: `Wing({-1, 0, -2.7}, 6.96, 2.50, &NACA_2412)`. -/
def main_wing : Wing ℚ :=
  Wing.new ⟨-1, 0, -2.7⟩ 6.96 2.50 (some (Airfoil.new NACA_2412_data (List.cons_ne_nil _ _)))
    ⟨0, 1, 0⟩ 0.25

/-- The second wing of the program: `Wing({-2.5, 0, -2.0}, 3.80, 1.26, &NACA_0012)`. -/
def second_wing : Wing ℚ :=
  Wing.new ⟨-2.5, 0, -2.0⟩ 3.80 1.26 (some (Airfoil.new NACA_0012_data (List.cons_ne_nil _ _)))
    ⟨0, 1, 0⟩ 0.25

/-- The inertia tensor configured in `main`. -/
def main_inertia : glm.mat3 ℚ :=
  glm.mat3.ofList [48531, -1320, 0, -1320, 256608, 0, 0, 0, 211333]

section lemmas

variable {K : Type} [LinearOrderedField K]

namespace glm

@[simp] theorem vec3_add_x (a b : vec3 K) : (a + b).x = a.x + b.x := rfl
@[simp] theorem vec3_add_y (a b : vec3 K) : (a + b).y = a.y + b.y := rfl
@[simp] theorem vec3_add_z (a b : vec3 K) : (a + b).z = a.z + b.z := rfl
@[simp] theorem vec3_sub_x (a b : vec3 K) : (a - b).x = a.x - b.x := rfl
@[simp] theorem vec3_sub_y (a b : vec3 K) : (a - b).y = a.y - b.y := rfl
@[simp] theorem vec3_sub_z (a b : vec3 K) : (a - b).z = a.z - b.z := rfl
@[simp] theorem vec3_neg_x (a : vec3 K) : (-a).x = -a.x := rfl
@[simp] theorem vec3_neg_y (a : vec3 K) : (-a).y = -a.y := rfl
@[simp] theorem vec3_neg_z (a : vec3 K) : (-a).z = -a.z := rfl
@[simp] theorem vec3_mul_x (a : vec3 K) (s : K) : (a * s).x = a.x * s := rfl
@[simp] theorem vec3_mul_y (a : vec3 K) (s : K) : (a * s).y = a.y * s := rfl
@[simp] theorem vec3_mul_z (a : vec3 K) (s : K) : (a * s).z = a.z * s := rfl
@[simp] theorem vec3_smul_x (s : K) (a : vec3 K) : (s * a).x = a.x * s := rfl
@[simp] theorem vec3_smul_y (s : K) (a : vec3 K) : (s * a).y = a.y * s := rfl
@[simp] theorem vec3_smul_z (s : K) (a : vec3 K) : (s * a).z = a.z * s := rfl
@[simp] theorem vec3_div_x (a : vec3 K) (s : K) : (a / s).x = a.x / s := rfl
@[simp] theorem vec3_div_y (a : vec3 K) (s : K) : (a / s).y = a.y / s := rfl
@[simp] theorem vec3_div_z (a : vec3 K) (s : K) : (a / s).z = a.z / s := rfl
@[simp] theorem vec3_zero_x : (vec3.zero : vec3 K).x = 0 := rfl
@[simp] theorem vec3_zero_y : (vec3.zero : vec3 K).y = 0 := rfl
@[simp] theorem vec3_zero_z : (vec3.zero : vec3 K).z = 0 := rfl

@[simp] theorem quat_mul_w (a b : quat K) :
    (a * b).w = a.w * b.w - a.x * b.x - a.y * b.y - a.z * b.z := rfl
@[simp] theorem quat_mul_x (a b : quat K) :
    (a * b).x = a.w * b.x + a.x * b.w + a.y * b.z - a.z * b.y := rfl
@[simp] theorem quat_mul_y (a b : quat K) :
    (a * b).y = a.w * b.y - a.x * b.z + a.y * b.w + a.z * b.x := rfl
@[simp] theorem quat_mul_z (a b : quat K) :
    (a * b).z = a.w * b.z + a.x * b.y - a.y * b.x + a.z * b.w := rfl

theorem quat_rotate_def (q : quat K) (v : vec3 K) :
    q * v = ⟨(q * quat.ofScalarVec 0 v * ⟨q.w, -q.x, -q.y, -q.z⟩).x,
             (q * quat.ofScalarVec 0 v * ⟨q.w, -q.x, -q.y, -q.z⟩).y,
             (q * quat.ofScalarVec 0 v * ⟨q.w, -q.x, -q.y, -q.z⟩).z⟩ := rfl

theorem vec3_add_zero (a : vec3 K) : a + vec3.zero = a := by
  ext <;> simp

theorem vec3_zero_add (a : vec3 K) : vec3.zero + a = a := by
  ext <;> simp

end glm

theorem std_max_eq_max (a b : K) : std_max a b = max a b := by
  unfold std_max
  split_ifs with h
  · exact (max_eq_right h.le).symm
  · exact (max_eq_left (not_lt.mp h)).symm

theorem std_min_eq_min (a b : K) : std_min a b = min a b := by
  unfold std_min
  split_ifs with h
  · exact (min_eq_right h.le).symm
  · exact (min_eq_left (not_lt.mp h)).symm

end lemmas

/-! ## Rigid body integrator -/

section rigid_body

variable {K : Type} [LinearOrderedField K]

open phi glm

theorem update_velocity (m : cmath K) (rb : RigidBody K) (dt : K) :
    (RigidBody.update m rb dt).velocity =
      rb.velocity + (if rb.apply_gravity then
        ({ (rb.m_force / rb.mass : vec3 K) with y := (rb.m_force / rb.mass : vec3 K).y - 9.81 }
          : vec3 K)
        else rb.m_force / rb.mass) * dt := rfl

theorem update_position (m : cmath K) (rb : RigidBody K) (dt : K) :
    (RigidBody.update m rb dt).position =
      rb.position + (RigidBody.update m rb dt).velocity * dt := rfl

/-- C1: with gravity enabled, non-zero mass and zero accumulated force, one `update(dt)` gives
`velocity.y - 9.81*dt`, moves `position.y` by the already-updated `velocity.y * dt`, and keeps
`velocity.x` and `velocity.z`; from rest with `dt = 0.1` the new `velocity.y` is `-0.981` and
`position.y` has changed by `-0.0981`. -/
theorem update_free_fall (m : cmath K) (rb : RigidBody K) (dt : K)
    (hg : rb.apply_gravity = true) (_hm : rb.mass ≠ 0) (hf : rb.m_force = vec3.zero) :
    (RigidBody.update m rb dt).velocity.y = rb.velocity.y - 9.81 * dt ∧
    (RigidBody.update m rb dt).position.y =
      rb.position.y + (RigidBody.update m rb dt).velocity.y * dt ∧
    (RigidBody.update m rb dt).velocity.x = rb.velocity.x ∧
    (RigidBody.update m rb dt).velocity.z = rb.velocity.z ∧
    (rb.velocity = vec3.zero → dt = 0.1 →
      (RigidBody.update m rb dt).velocity.y = -0.981 ∧
      (RigidBody.update m rb dt).position.y - rb.position.y = -0.0981) := by
  have hvy : (RigidBody.update m rb dt).velocity.y = rb.velocity.y - 9.81 * dt := by
    rw [update_velocity, hg, hf]
    simp
    ring
  have hpy : (RigidBody.update m rb dt).position.y =
      rb.position.y + (RigidBody.update m rb dt).velocity.y * dt := by
    rw [update_position]
    simp
  refine ⟨hvy, hpy, ?_, ?_, ?_⟩
  · rw [update_velocity, hg, hf]
    simp
  · rw [update_velocity, hg, hf]
    simp
  · intro hv hdt
    rw [hpy, hvy, hv, hdt]
    simp
    norm_num

/-- Witness of C1: the body at rest at `(1, 2, 3)`, stepped by `dt = 0.1`. -/
theorem update_free_fall_witness :
    body_at_rest.apply_gravity = true ∧ body_at_rest.mass ≠ 0 ∧
    body_at_rest.m_force = vec3.zero ∧
    (RigidBody.update cmath_rat body_at_rest 0.1).velocity.y = -0.981 ∧
    (RigidBody.update cmath_rat body_at_rest 0.1).position.y - body_at_rest.position.y
      = -0.0981 :=
  ⟨rfl, by simp [body_at_rest, RigidBody.init], rfl,
   (update_free_fall cmath_rat body_at_rest 0.1 rfl (by simp [body_at_rest, RigidBody.init])
      rfl).2.2.2.2 rfl rfl⟩

theorem update_stationary_step (m : cmath K) (rb : RigidBody K) (dt : K)
    (hv : rb.velocity = vec3.zero) (hf : rb.m_force = vec3.zero)
    (hg : rb.apply_gravity = false) :
    (RigidBody.update m rb dt).velocity = vec3.zero ∧
    (RigidBody.update m rb dt).position = rb.position := by
  have h1 : (RigidBody.update m rb dt).velocity = vec3.zero := by
    rw [update_velocity, hg, hv, hf]
    ext <;> simp
  refine ⟨h1, ?_⟩
  rw [update_position, h1]
  ext <;> simp

theorem update_keeps_config (m : cmath K) (rb : RigidBody K) (dt : K) :
    (RigidBody.update m rb dt).mass = rb.mass ∧
    (RigidBody.update m rb dt).apply_gravity = rb.apply_gravity ∧
    (RigidBody.update m rb dt).m_force = vec3.zero ∧
    (RigidBody.update m rb dt).m_torque = vec3.zero :=
  ⟨rfl, rfl, rfl, rfl⟩

/-- C2: a body with zero velocity, zero force and torque accumulators and gravity disabled
(mass non-zero, as the data model requires) keeps its position and its zero velocity through
any number `n` of consecutive `update(dt)` calls. -/
theorem update_n_stationary (m : cmath K) (dt : K) (n : Nat) (rb : RigidBody K)
    (hm : rb.mass ≠ 0) (hv : rb.velocity = vec3.zero) (hf : rb.m_force = vec3.zero)
    (ht : rb.m_torque = vec3.zero) (hg : rb.apply_gravity = false) :
    (RigidBody.update_n m dt n rb).position = rb.position ∧
    (RigidBody.update_n m dt n rb).velocity = vec3.zero := by
  induction n generalizing rb with
  | zero => exact ⟨rfl, hv⟩
  | succ k ih =>
    obtain ⟨hv1, hp1⟩ := update_stationary_step m rb dt hv hf hg
    obtain ⟨hm1, hg1, hf1, ht1⟩ := update_keeps_config m rb dt
    have h := ih (RigidBody.update m rb dt) (hm1 ▸ hm) hv1 hf1 ht1 (hg1.trans hg)
    exact ⟨h.1.trans hp1, h.2⟩

/-- Witness of C2: the gravity-free body at rest at `(1, 2, 3)`, five steps of `dt = 0.016`. -/
theorem update_n_stationary_witness :
    body_no_gravity.mass ≠ 0 ∧ body_no_gravity.velocity = vec3.zero ∧
    body_no_gravity.m_force = vec3.zero ∧ body_no_gravity.m_torque = vec3.zero ∧
    body_no_gravity.apply_gravity = false ∧
    (RigidBody.update_n cmath_rat 0.016 5 body_no_gravity).position = ⟨1, 2, 3⟩ ∧
    (RigidBody.update_n cmath_rat 0.016 5 body_no_gravity).velocity = vec3.zero :=
  ⟨by simp [body_no_gravity, RigidBody.init], rfl, rfl, rfl, rfl,
   update_n_stationary cmath_rat 0.016 5 body_no_gravity
     (by simp [body_no_gravity, RigidBody.init]) rfl rfl rfl rfl⟩

end rigid_body

/-! ## Quaternion algebra -/

section quaternion

variable {K : Type} [LinearOrderedField K]

open glm

/-- Rotating by `q` and then by `inverse(q)` scales a vector by the square of the squared norm
of `q`. -/
theorem rotate_inverse_rotate_scaled (q : quat K) (v : vec3 K) :
    inverse q * (q * v) =
      v * ((q.w * q.w + q.x * q.x + q.y * q.y + q.z * q.z) *
           (q.w * q.w + q.x * q.x + q.y * q.y + q.z * q.z)) := by
  rw [quat_rotate_def (inverse q), quat_rotate_def q]
  ext <;> simp [inverse, quat.ofScalarVec] <;> ring

/-- C3: for a unit quaternion `q` and any vector `v`, rotating `v` by `q` and then by
`inverse(q)` returns `v`: `inverse(q) * (q * v) = v`. -/
theorem rotate_inverse_rotate (q : quat K) (v : vec3 K)
    (hq : q.w * q.w + q.x * q.x + q.y * q.y + q.z * q.z = 1) :
    inverse q * (q * v) = v := by
  rw [rotate_inverse_rotate_scaled, hq]
  ext <;> simp

/-- Witness of C3: the unit quaternion `(3/5, 0, 4/5, 0)` and the vector `(1, 2, 3)`. -/
theorem rotate_inverse_rotate_witness :
    ((3 / 5 : ℚ) * (3 / 5) + 0 * 0 + (4 / 5) * (4 / 5) + 0 * 0 = 1) ∧
    inverse (⟨3 / 5, 0, 4 / 5, 0⟩ : quat ℚ) * ((⟨3 / 5, 0, 4 / 5, 0⟩ : quat ℚ) *
      (⟨1, 2, 3⟩ : vec3 ℚ)) = ⟨1, 2, 3⟩ :=
  ⟨by norm_num, rotate_inverse_rotate ⟨3 / 5, 0, 4 / 5, 0⟩ ⟨1, 2, 3⟩ (by norm_num)⟩

end quaternion

/-! ## Airfoil lookup -/

section airfoil_scale

variable {K : Type} [LinearOrderedField K]

theorem clamp_eq_max_min (v lo hi : K) : glm.clamp v lo hi = max lo (min v hi) := by
  unfold glm.clamp
  rw [std_max_eq_max, std_min_eq_min]

theorem scale_of_lt (value in_min in_max out_max : K) (h : in_min < in_max) :
    scale value in_min in_max 0 out_max = (value - in_min) / (in_max - in_min) * out_max := by
  unfold scale
  rw [if_neg (not_le.mpr h)]
  simp

theorem scale_of_le (value in_min in_max out_min out_max : K) (h : in_max ≤ in_min) :
    scale value in_min in_max out_min out_max = out_min := by
  unfold scale
  rw [if_pos h]

theorem clamp_mem_Icc (v lo hi : K) (h : lo ≤ hi) :
    lo ≤ glm.clamp v lo hi ∧ glm.clamp v lo hi ≤ hi := by
  rw [clamp_eq_max_min]
  exact ⟨le_max_left _ _, max_le h (min_le_right _ _)⟩

end airfoil_scale

section airfoil_lookup

variable {K : Type} [LinearOrderedField K] [FloorRing K]

theorem Airfoil.sample_index_def (a : Airfoil K) (alpha : K) :
    a.sample_index alpha = static_cast_int (glm.clamp
      (scale alpha a.min_alpha a.max_alpha 0 ((size_minus_one a.data : Nat) : K))
      0 ((size_minus_one a.data : Nat) : K)) := rfl

theorem static_cast_int_of_mem_Ico (x : K) (i : Nat) (h1 : (i : K) ≤ x) (h2 : x < (i : K) + 1) :
    static_cast_int x = (i : Int) := by
  unfold static_cast_int
  have h0 : (0 : K) ≤ x := le_trans (Nat.cast_nonneg i) h1
  rw [if_pos h0, Int.floor_eq_iff]
  exact ⟨by simpa using h1, by simpa using h2⟩

theorem static_cast_int_natCast (i : Nat) : static_cast_int ((i : Nat) : K) = (i : Int) :=
  static_cast_int_of_mem_Ico _ i le_rfl (lt_add_one _)

theorem size_minus_one_of_ne_nil {α : Type} (data : List α) (h : data ≠ []) :
    size_minus_one data = data.length - 1 := by
  unfold size_minus_one
  rw [if_neg]
  simpa using h

theorem vector_at_natCast {α : Type} (data : List α) (i : Nat) (hi : i < data.length) :
    vector_at data (i : Int) = some (data.get ⟨i, hi⟩) := by
  unfold vector_at
  rw [if_neg (by simp), Int.toNat_ofNat, List.get?_eq_get hi]

theorem Airfoil.sample_of_index (a : Airfoil K) (alpha : K) (i : Nat) (hi : i < a.data.length)
    (h : a.sample_index alpha = (i : Int)) :
    a.sample alpha = some ((a.data.get ⟨i, hi⟩).y, (a.data.get ⟨i, hi⟩).z) := by
  unfold Airfoil.sample
  rw [h, vector_at_natCast a.data i hi]

/-- The index is `0` when the query is at or below `min_alpha`, and also for every query when
`max_alpha <= min_alpha`. -/
theorem Airfoil.sample_index_low (a : Airfoil K) (alpha : K)
    (h : a.max_alpha ≤ a.min_alpha ∨ alpha ≤ a.min_alpha) :
    a.sample_index alpha = 0 := by
  rw [Airfoil.sample_index_def]
  have hL : (0 : K) ≤ ((size_minus_one a.data : Nat) : K) := Nat.cast_nonneg _
  have hidx : scale alpha a.min_alpha a.max_alpha 0 ((size_minus_one a.data : Nat) : K) ≤ 0 := by
    rcases le_or_lt a.max_alpha a.min_alpha with hle | hlt
    · rw [scale_of_le _ _ _ _ _ hle]
    · rw [scale_of_lt _ _ _ _ hlt]
      have hal : alpha ≤ a.min_alpha := h.resolve_left (not_le.mpr hlt)
      have ht : (alpha - a.min_alpha) / (a.max_alpha - a.min_alpha) ≤ 0 :=
        div_nonpos_of_nonpos_of_nonneg (sub_nonpos.mpr hal) (sub_pos.mpr hlt).le
      exact mul_nonpos_of_nonpos_of_nonneg ht hL
  have hc : glm.clamp (scale alpha a.min_alpha a.max_alpha 0 ((size_minus_one a.data : Nat) : K))
      0 ((size_minus_one a.data : Nat) : K) = ((0 : Nat) : K) := by
    rw [clamp_eq_max_min, min_eq_left (hidx.trans hL), max_eq_left hidx, Nat.cast_zero]
  rw [hc, static_cast_int_natCast]
  rfl

/-- The index is `N - 1` when `min_alpha < max_alpha` and the query is at or above
`max_alpha`. -/
theorem Airfoil.sample_index_high (a : Airfoil K) (alpha : K)
    (hlt : a.min_alpha < a.max_alpha) (h : a.max_alpha ≤ alpha) :
    a.sample_index alpha = ((size_minus_one a.data : Nat) : Int) := by
  rw [Airfoil.sample_index_def]
  have hL : (0 : K) ≤ ((size_minus_one a.data : Nat) : K) := Nat.cast_nonneg _
  have hidx : ((size_minus_one a.data : Nat) : K) ≤
      scale alpha a.min_alpha a.max_alpha 0 ((size_minus_one a.data : Nat) : K) := by
    rw [scale_of_lt _ _ _ _ hlt]
    have ht : 1 ≤ (alpha - a.min_alpha) / (a.max_alpha - a.min_alpha) := by
      rw [le_div_iff₀ (sub_pos.mpr hlt)]
      linarith
    calc ((size_minus_one a.data : Nat) : K) = 1 * ((size_minus_one a.data : Nat) : K) := by ring
      _ ≤ _ := mul_le_mul_of_nonneg_right ht hL
  rw [clamp_eq_max_min, min_eq_right hidx, max_eq_right hL, static_cast_int_natCast]

theorem Airfoil.new_sample_first (curve : List (glm.vec3 K)) (hne : curve ≠ []) (alpha : K)
    (h : (curve.getLast hne).x ≤ (curve.head hne).x ∨ alpha ≤ (curve.head hne).x) :
    (Airfoil.new curve hne).sample alpha = some ((curve.head hne).y, (curve.head hne).z) := by
  have hpos : 0 < (Airfoil.new curve hne).data.length := List.length_pos.mpr hne
  rw [Airfoil.sample_of_index (Airfoil.new curve hne) alpha 0 hpos
    (Airfoil.sample_index_low (Airfoil.new curve hne) alpha h)]
  simp [Airfoil.new, List.head_eq_getElem]

theorem Airfoil.new_sample_last (curve : List (glm.vec3 K)) (hne : curve ≠ []) (alpha : K)
    (hlt : (curve.head hne).x < (curve.getLast hne).x) (h : (curve.getLast hne).x ≤ alpha) :
    (Airfoil.new curve hne).sample alpha =
      some ((curve.getLast hne).y, (curve.getLast hne).z) := by
  have hpos : 0 < curve.length := List.length_pos.mpr hne
  have hi : curve.length - 1 < (Airfoil.new curve hne).data.length :=
    Nat.sub_lt hpos Nat.one_pos
  have hidx := Airfoil.sample_index_high (Airfoil.new curve hne) alpha hlt h
  rw [show size_minus_one (Airfoil.new curve hne).data = curve.length - 1 from
    size_minus_one_of_ne_nil curve hne] at hidx
  rw [Airfoil.sample_of_index (Airfoil.new curve hne) alpha (curve.length - 1) hi hidx]
  simp [Airfoil.new, List.getLast_eq_getElem]

/-- C4 (amended): for every airfoil table whose first angle is strictly below its last angle
(so it has at least 2 rows; every strictly ascending table of 2 or more rows is one),
`sample` at or below the first angle returns the first row's coefficients and `sample` at or
above the last angle returns the last row's coefficients. -/
theorem sample_boundary (curve : List (glm.vec3 K)) (hne : curve ≠ [])
    (hlt : (curve.head hne).x < (curve.getLast hne).x) :
    (∀ alpha : K, alpha ≤ (curve.head hne).x →
      (Airfoil.new curve hne).sample alpha =
        some ((curve.head hne).y, (curve.head hne).z)) ∧
    (∀ alpha : K, (curve.getLast hne).x ≤ alpha →
      (Airfoil.new curve hne).sample alpha =
        some ((curve.getLast hne).y, (curve.getLast hne).z)) :=
  ⟨fun alpha h => Airfoil.new_sample_first curve hne alpha (Or.inr h),
   fun alpha h => Airfoil.new_sample_last curve hne alpha hlt h⟩

/-- Witness of C4 (amended): the program's table `NACA_0012_data`, sampled at its first angle
`-10` and at its last angle `10`. -/
theorem sample_boundary_witness :
    ((NACA_0012_data.head (List.cons_ne_nil _ _)).x <
      (NACA_0012_data.getLast (List.cons_ne_nil _ _)).x) ∧
    (Airfoil.new NACA_0012_data (List.cons_ne_nil _ _)).sample (-10) = some (-0.6, 0.08) ∧
    (Airfoil.new NACA_0012_data (List.cons_ne_nil _ _)).sample 10 = some (0.6, 0.08) :=
  ⟨by norm_num [NACA_0012_data],
   (sample_boundary NACA_0012_data (List.cons_ne_nil _ _)
      (by norm_num [NACA_0012_data])).1 (-10) (by norm_num [NACA_0012_data]),
   (sample_boundary NACA_0012_data (List.cons_ne_nil _ _)
      (by norm_num [NACA_0012_data])).2 10 (by norm_num [NACA_0012_data])⟩

/-- C4 fails as stated: the two-row table `flat_curve` is sorted by ascending angle, the query
`0` is at its maximum angle, and `sample(0)` returns the first row `(1, 2)`, not the last row
`(3, 4)`. -/
theorem sample_boundary_counterexample :
    2 ≤ flat_curve.length ∧
    flat_curve.Pairwise (fun r s => r.x ≤ s.x) ∧
    (flat_curve.getLast (List.cons_ne_nil _ _)).x ≤ 0 ∧
    (Airfoil.new flat_curve (List.cons_ne_nil _ _)).sample 0 = some (1, 2) ∧
    (Airfoil.new flat_curve (List.cons_ne_nil _ _)).sample 0 ≠
      some ((flat_curve.getLast (List.cons_ne_nil _ _)).y,
            (flat_curve.getLast (List.cons_ne_nil _ _)).z) := by
  have hs : (Airfoil.new flat_curve (List.cons_ne_nil _ _)).sample 0 = some (1, 2) :=
    Airfoil.new_sample_first flat_curve (List.cons_ne_nil _ _) 0
      (Or.inl (by norm_num [flat_curve]))
  refine ⟨by simp [flat_curve], by simp [flat_curve], by norm_num [flat_curve], hs, ?_⟩
  rw [hs]
  norm_num [flat_curve]

theorem static_cast_int_mem_Icc (x : K) (n : Nat) (h0 : 0 ≤ x) (h1 : x ≤ (n : K)) :
    0 ≤ static_cast_int x ∧ static_cast_int x ≤ (n : Int) := by
  unfold static_cast_int
  rw [if_pos h0]
  refine ⟨Int.floor_nonneg.mpr h0, ?_⟩
  have h2 : ((Int.floor x : Int) : K) ≤ ((n : Int) : K) := by
    have := Int.floor_le x
    push_cast
    linarith
  exact_mod_cast h2

/-- For a non-empty table the index computed by `sample` is a row index, and `sample`
returns that row's coefficients. -/
theorem Airfoil.sample_index_mem (a : Airfoil K) (alpha : K) (hne : a.data ≠ []) :
    ∃ (i : Nat) (hi : i < a.data.length),
      a.sample_index alpha = (i : Int) ∧
      a.sample alpha = some ((a.data.get ⟨i, hi⟩).y, (a.data.get ⟨i, hi⟩).z) := by
  have hpos : 0 < a.data.length := List.length_pos.mpr hne
  have hL : size_minus_one a.data = a.data.length - 1 := size_minus_one_of_ne_nil a.data hne
  obtain ⟨hc0, hc1⟩ := clamp_mem_Icc
    (scale alpha a.min_alpha a.max_alpha 0 ((size_minus_one a.data : Nat) : K)) 0
    ((size_minus_one a.data : Nat) : K) (Nat.cast_nonneg _)
  obtain ⟨hi0, hi1⟩ := static_cast_int_mem_Icc _ _ hc0 hc1
  rw [← Airfoil.sample_index_def] at hi0 hi1
  rw [hL] at hi1
  refine ⟨(a.sample_index alpha).toNat, by omega, ?_, ?_⟩
  · exact (Int.toNat_of_nonneg hi0).symm
  · exact Airfoil.sample_of_index a alpha _ (by omega) (Int.toNat_of_nonneg hi0).symm

end airfoil_lookup

/-! ## Aerodynamic surfaces -/

section wing

variable {K : Type} [LinearOrderedField K] [FloorRing K]

open phi glm

/-- C6: when the local airflow speed `|get_point_velocity(center_of_pressure)|` is at most
`1.0` (including exactly `1.0`), `Wing::apply_force` returns the rigid body unchanged: force
accumulator, torque accumulator and every other field. -/
theorem apply_force_below_deadband (m : cmath K) (w : Wing K) (rb : RigidBody K) (dt : K)
    (hspeed : glm.length m (rb.get_point_velocity w.center_of_pressure) ≤ 1) :
    w.apply_force m rb dt = some rb := by
  unfold Wing.apply_force
  cases w.airfoil with
  | none => rfl
  | some airfoil => simp only [if_pos hspeed]

theorem body_unit_speed_local_speed :
    glm.length cmath_rat (body_unit_speed.get_point_velocity main_wing.center_of_pressure)
      = 1 := by
  have h : glm.dot (body_unit_speed.get_point_velocity main_wing.center_of_pressure)
      (body_unit_speed.get_point_velocity main_wing.center_of_pressure) = 1 * 1 := by
    simp [glm.dot, RigidBody.get_point_velocity, RigidBody.inverse_transform_direction,
      quat_rotate_def, glm.inverse, glm.cross, quat.ofScalarVec, body_unit_speed,
      RigidBody.init, quat.identity, main_wing, Wing.new]
  unfold glm.length
  rw [h]
  simp [cmath_rat, Rat.sqrt_eq]

/-- Witness of C6: the program's first wing on a body whose local airflow speed is exactly
`1`. -/
theorem apply_force_below_deadband_witness :
    glm.length cmath_rat (body_unit_speed.get_point_velocity main_wing.center_of_pressure) ≤ 1 ∧
    main_wing.apply_force cmath_rat body_unit_speed 0.016 = some body_unit_speed :=
  ⟨body_unit_speed_local_speed.le,
   apply_force_below_deadband cmath_rat main_wing body_unit_speed 0.016
     body_unit_speed_local_speed.le⟩

/-- The result of `Wing::apply_force` on a body with accumulators `f`, `t` is obtained from
its result on the same body with zeroed accumulators: the wing reads only the motion state and
adds its contribution to the accumulators. -/
theorem apply_force_accumulates (m : cmath K) (w : Wing K) (rb : RigidBody K) (dt : K)
    (f t : vec3 K) :
    w.apply_force m { rb with m_force := f, m_torque := t } dt =
      (w.apply_force m { rb with m_force := vec3.zero, m_torque := vec3.zero } dt).map
        (fun r => { rb with m_force := f + r.m_force, m_torque := t + r.m_torque }) := by
  unfold Wing.apply_force
  cases w.airfoil with
  | none => simp [vec3_add_zero]
  | some airfoil =>
    simp only [RigidBody.get_point_velocity, RigidBody.inverse_transform_direction]
    split_ifs with hs
    · simp [vec3_add_zero]
    · simp only [Wing.aero_force]
      cases airfoil.sample (glm.degrees (m.asin (glm.dot
        (glm.normalize m (-(glm.inverse rb.orientation * rb.velocity +
          glm.cross rb.angular_velocity w.center_of_pressure))) w.normal))) with
      | none => rfl
      | some c =>
        simp [RigidBody.add_force_at_point, RigidBody.transform_direction, vec3_zero_add]

theorem apply_wings_cons (m : cmath K) (dt : K) (w : Wing K) (ws : List (Wing K))
    (rb : RigidBody K) :
    apply_wings m dt (w :: ws) rb = (w.apply_force m rb dt).bind (apply_wings m dt ws) := by
  rw [apply_wings]
  cases w.apply_force m rb dt <;> rfl

/-- A wing whose airfoil table (when it has one) is non-empty always returns a body. -/
theorem apply_force_isSome (m : cmath K) (w : Wing K) (rb : RigidBody K) (dt : K)
    (hw : ∀ airfoil, w.airfoil = some airfoil → airfoil.data ≠ []) :
    ∃ rb1, w.apply_force m rb dt = some rb1 := by
  unfold Wing.apply_force
  cases hq : w.airfoil with
  | none => exact ⟨rb, rfl⟩
  | some airfoil =>
    simp only
    split_ifs with hs
    · exact ⟨rb, rfl⟩
    · obtain ⟨i, hi, _, hsample⟩ := Airfoil.sample_index_mem airfoil
        (glm.degrees (m.asin (glm.dot
          (glm.normalize m (-(rb.get_point_velocity w.center_of_pressure))) w.normal)))
        (hw airfoil hq)
      simp only [Wing.aero_force, hsample]
      exact ⟨_, rfl⟩

theorem apply_wings_isSome (m : cmath K) (dt : K) (ws : List (Wing K))
    (hw : ∀ w ∈ ws, ∀ airfoil, w.airfoil = some airfoil → airfoil.data ≠ []) :
    ∀ rb : RigidBody K, ∃ rb1, apply_wings m dt ws rb = some rb1 := by
  induction ws with
  | nil => intro rb; exact ⟨rb, rfl⟩
  | cons w ws ih =>
    intro rb
    obtain ⟨r, hr⟩ := apply_force_isSome m w rb dt (hw w (List.mem_cons_self _ _))
    rw [apply_wings_cons, hr]
    exact ih (fun w1 h1 => hw w1 (List.mem_cons_of_mem _ h1)) r

end wing

/-! ## Unit quaternions -/

section unit_quaternion

variable {K : Type} [LinearOrderedField K]

open phi glm

theorem real_sqrt_exact : (cmath.mk Real.sqrt Real.exp Real.arcsin).sqrt_exact :=
  fun x hx => ⟨Real.sqrt_nonneg x, Real.mul_self_sqrt hx⟩

theorem real_exp_exact : (cmath.mk Real.sqrt Real.exp Real.arcsin).exp_exact :=
  ⟨Real.exp_zero, Real.exp_pos, fun _ _ h => Real.exp_lt_exp.mpr h⟩

end unit_quaternion

/-! ## Atmosphere model -/

section atmosphere

variable {K : Type} [LinearOrderedField K]

theorem get_air_density_eq_max (m : cmath K) (altitude : K) :
    isa.get_air_density m altitude = max 0 (1.225 * m.exp (-altitude / 8500)) := by
  unfold isa.get_air_density
  simp only
  rw [std_max_eq_max]

/-- C9: for every altitude, `get_air_density(altitude)` is
`max(0, 1.225 * exp(-altitude / 8500))` and is non-negative, and `get_air_density(0)` is
`1.225`. -/
theorem get_air_density_nonneg (m : cmath K) (hexp : m.exp 0 = 1) :
    (∀ altitude : K, isa.get_air_density m altitude =
      max 0 (1.225 * m.exp (-altitude / 8500))) ∧
    (∀ altitude : K, 0 ≤ isa.get_air_density m altitude) ∧
    isa.get_air_density m 0 = 1.225 := by
  refine ⟨get_air_density_eq_max m, fun altitude => ?_, ?_⟩
  · rw [get_air_density_eq_max]
    exact le_max_left _ _
  · rw [get_air_density_eq_max]
    simp only [neg_zero, zero_div, hexp, mul_one]
    exact max_eq_right (by norm_num)

/-- Witness of C9: the real exponential; the density at altitude `0` and its sign at altitude
`-100000`. -/
theorem get_air_density_nonneg_witness :
    (cmath.mk Real.sqrt Real.exp Real.arcsin).exp 0 = 1 ∧
    (0 : ℝ) ≤ isa.get_air_density (cmath.mk Real.sqrt Real.exp Real.arcsin) (-100000) ∧
    isa.get_air_density (cmath.mk Real.sqrt Real.exp Real.arcsin) 0 = 1.225 :=
  ⟨Real.exp_zero,
   (get_air_density_nonneg (cmath.mk Real.sqrt Real.exp Real.arcsin) Real.exp_zero).2.1 _,
   (get_air_density_nonneg (cmath.mk Real.sqrt Real.exp Real.arcsin) Real.exp_zero).2.2⟩

theorem get_air_density_eq_of_pos (m : cmath K) (hpos : ∀ x : K, 0 < m.exp x) (altitude : K) :
    isa.get_air_density m altitude = 1.225 * m.exp (-altitude / 8500) := by
  rw [get_air_density_eq_max]
  exact max_eq_right (mul_pos (by norm_num) (hpos _)).le

/-- C10: `get_air_density` is strictly decreasing in altitude: for all altitudes `a < b`,
`get_air_density(a) > get_air_density(b)`. -/
theorem get_air_density_strict_anti (m : cmath K) (hexp : m.exp_exact) (a b : K) (hab : a < b) :
    isa.get_air_density m b < isa.get_air_density m a := by
  obtain ⟨_, hpos, hmono⟩ := hexp
  rw [get_air_density_eq_of_pos m hpos, get_air_density_eq_of_pos m hpos]
  have harg : -b / 8500 < -a / 8500 :=
    div_lt_div_of_pos_right (neg_lt_neg hab) (by norm_num)
  exact mul_lt_mul_of_pos_left (hmono _ _ harg) (by norm_num)

/-- Witness of C10: the real exponential, altitudes `0` and `8500`. -/
theorem get_air_density_strict_anti_witness :
    (cmath.mk Real.sqrt Real.exp Real.arcsin).exp_exact ∧ (0 : ℝ) < 8500 ∧
    isa.get_air_density (cmath.mk Real.sqrt Real.exp Real.arcsin) 8500 <
      isa.get_air_density (cmath.mk Real.sqrt Real.exp Real.arcsin) 0 :=
  ⟨real_exp_exact, by norm_num,
   get_air_density_strict_anti _ real_exp_exact 0 8500 (by norm_num)⟩

end atmosphere

/-! ## Normalisation guards -/

section normalisation

variable {K : Type} [LinearOrderedField K]

open phi glm

end normalisation

/-! ## Force accumulation and integration step -/

section accumulation

variable {K : Type} [LinearOrderedField K]

open phi glm

/-- C12: `add_force_at_point(f, p)` adds `orientation * f` (the force rotated into world space)
to the world-force accumulator, adds `cross(p, f)` of the untransformed body-frame force to the
torque accumulator, and changes no other field. -/
theorem add_force_at_point_effect (rb : RigidBody K) (f p : vec3 K) :
    (rb.add_force_at_point f p).m_force = rb.m_force + rb.orientation * f ∧
    (rb.add_force_at_point f p).m_torque = rb.m_torque + glm.cross p f ∧
    (rb.add_force_at_point f p).mass = rb.mass ∧
    (rb.add_force_at_point f p).position = rb.position ∧
    (rb.add_force_at_point f p).orientation = rb.orientation ∧
    (rb.add_force_at_point f p).velocity = rb.velocity ∧
    (rb.add_force_at_point f p).angular_velocity = rb.angular_velocity ∧
    (rb.add_force_at_point f p).inertia = rb.inertia ∧
    (rb.add_force_at_point f p).inverse_inertia = rb.inverse_inertia ∧
    (rb.add_force_at_point f p).apply_gravity = rb.apply_gravity :=
  ⟨rfl, rfl, rfl, rfl, rfl, rfl, rfl, rfl, rfl, rfl⟩

/-- A rotation by `q` scales the squared length by the square of the squared norm of `q`. -/
theorem dot_rotate_self (q : quat K) (v : vec3 K) :
    glm.dot (q * v) (q * v) =
      (q.w * q.w + q.x * q.x + q.y * q.y + q.z * q.z) *
      (q.w * q.w + q.x * q.x + q.y * q.y + q.z * q.z) * glm.dot v v := by
  rw [quat_rotate_def q]
  simp [glm.dot, quat.ofScalarVec]
  ring

theorem sqrt_exact_mul_self (m : cmath K) (hs : m.sqrt_exact) (s : K) :
    m.sqrt (s * s) = |s| := by
  obtain ⟨h0, h1⟩ := hs (s * s) (mul_self_nonneg s)
  have h2 : m.sqrt (s * s) * m.sqrt (s * s) = |s| * |s| := by rw [h1, abs_mul_abs_self]
  exact (mul_self_inj h0 (abs_nonneg s)).mp h2

/-- C13: for every throttle and thrust (no clamping), `Engine::apply_force` adds to the
world-force accumulator exactly the body X-axis vector `(throttle*thrust, 0, 0)` rotated by the
orientation, leaves the torque accumulator unchanged, and the added force has magnitude
`|throttle*thrust|` when the orientation is unit-length. -/
theorem engine_apply_force_effect (m : cmath K) (e : Engine K) (rb : RigidBody K) :
    (e.apply_force rb).m_force =
      rb.m_force + rb.orientation * (⟨e.throttle * e.thrust, 0, 0⟩ : vec3 K) ∧
    (e.apply_force rb).m_torque = rb.m_torque ∧
    (m.sqrt_exact →
      rb.orientation.w * rb.orientation.w + rb.orientation.x * rb.orientation.x +
        rb.orientation.y * rb.orientation.y + rb.orientation.z * rb.orientation.z = 1 →
      glm.length m (rb.orientation * (⟨e.throttle * e.thrust, 0, 0⟩ : vec3 K)) =
        |e.throttle * e.thrust|) := by
  refine ⟨?_, rfl, fun hs hq => ?_⟩
  · have hv : (phi.FORWARD : vec3 K) * (e.throttle * e.thrust) =
        ⟨e.throttle * e.thrust, 0, 0⟩ := by
      ext <;> simp [phi.FORWARD]
    unfold Engine.apply_force RigidBody.add_relative_force RigidBody.transform_direction
    rw [hv]
  · unfold glm.length
    rw [dot_rotate_self, hq]
    have hd : glm.dot (⟨e.throttle * e.thrust, 0, 0⟩ : vec3 K) ⟨e.throttle * e.thrust, 0, 0⟩ =
        (e.throttle * e.thrust) * (e.throttle * e.thrust) := by
      simp [glm.dot]
    rw [hd, one_mul, one_mul]
    exact sqrt_exact_mul_self m hs _

/-- Witness of C13: the real square root, throttle `-2`, thrust `50000`, and the unit
orientation `(3/5, 0, 4/5, 0)`: the added force has magnitude `100000`. -/
theorem engine_apply_force_effect_witness :
    glm.length (cmath.mk Real.sqrt Real.exp Real.arcsin)
      ((⟨3 / 5, 0, 4 / 5, 0⟩ : quat ℝ) * (⟨(-2) * 50000, 0, 0⟩ : vec3 ℝ)) = |(-2) * 50000| :=
  (engine_apply_force_effect (cmath.mk Real.sqrt Real.exp Real.arcsin) ⟨-2, 50000⟩
    { (RigidBody.init : RigidBody ℝ) with orientation := ⟨3 / 5, 0, 4 / 5, 0⟩ }).2.2
    real_sqrt_exact (by norm_num)

/-- C15: after `update(dt)`, whatever force and torque were accumulated, both the world-force
accumulator and the body-torque accumulator are zero, so the next step starts from empty
accumulators. -/
theorem update_resets_accumulators (m : cmath K) (rb : RigidBody K) (dt : K) :
    (RigidBody.update m rb dt).m_force = vec3.zero ∧
    (RigidBody.update m rb dt).m_torque = vec3.zero :=
  ⟨rfl, rfl⟩

/-- C17: `update(dt)` sets `angular_velocity' = angular_velocity + inverse_inertia * (torque -
cross(angular_velocity, inertia * angular_velocity)) * dt` from the pre-step angular velocity,
and then `orientation' = normalize(orientation + (orientation * quat(0, angular_velocity')) *
(0.5 * dt))` with the already-updated angular velocity on the right of the pre-step
orientation. -/
theorem update_angular_step (m : cmath K) (rb : RigidBody K) (dt : K) :
    (RigidBody.update m rb dt).angular_velocity =
      rb.angular_velocity +
        (rb.inverse_inertia *
          (rb.m_torque - glm.cross rb.angular_velocity (rb.inertia * rb.angular_velocity))) *
        dt ∧
    (RigidBody.update m rb dt).orientation =
      glm.normalize_quat m
        (rb.orientation +
          (rb.orientation *
            glm.quat.ofScalarVec 0 (RigidBody.update m rb dt).angular_velocity) *
          ((0.5 : K) * dt)) :=
  ⟨rfl, rfl⟩

end accumulation

/-! ## Control input -/

section control_input

variable {K : Type} [LinearOrderedField K]

/-- C16: `set_control_input(input)` stores a control input within `[-1, 1]`: `input` itself
when `-1 <= input <= 1`, `1` when `input > 1`, and `-1` when `input < -1`. -/
theorem set_control_input_clamps (w : Wing K) (input : K) :
    -1 ≤ (w.set_control_input input).control_input ∧
    (w.set_control_input input).control_input ≤ 1 ∧
    (-1 ≤ input → input ≤ 1 → (w.set_control_input input).control_input = input) ∧
    (1 < input → (w.set_control_input input).control_input = 1) ∧
    (input < -1 → (w.set_control_input input).control_input = -1) := by
  have h : (w.set_control_input input).control_input = max (-1) (min input 1) :=
    clamp_eq_max_min input (-1) 1
  rw [h]
  refine ⟨le_max_left _ _, max_le (by norm_num) (min_le_right _ _), ?_, ?_, ?_⟩
  · intro h1 h2
    rw [min_eq_left h2, max_eq_right h1]
  · intro h1
    rw [min_eq_right h1.le, max_eq_right (by norm_num)]
  · intro h1
    have h2 : input ≤ 1 := h1.le.trans (by norm_num)
    rw [min_eq_left h2, max_eq_left h1.le]

end control_input

/-! ## Inertia tensor of the airplane -/

section inertia

open phi glm

theorem airplane_new_inverse_inertia {K : Type} [LinearOrderedField K]
    (mass_value thrust_value : K) (inertia_value : mat3 K) (wings : List (Wing K)) :
    (Airplane.new mass_value thrust_value inertia_value wings).body.inverse_inertia =
      inertia_value ∧
    (Airplane.new mass_value thrust_value inertia_value wings).body.inertia = inertia_value :=
  ⟨rfl, rfl⟩

/-- C14 fails on the code: the constructor stores the inertia tensor itself in
`inverse_inertia`. For the tensor configured in `main`, which is invertible, the stored
`inverse_inertia * (inertia * (1, 0, 0))` is `(2357000361, -402783480, 0)`, not `(1, 0, 0)`. -/
theorem airplane_inverse_inertia_not_inverse :
    (∃ J : mat3 ℚ, ∀ v : vec3 ℚ, J * (main_inertia * v) = v) ∧
    (Airplane.new 10000 50000 main_inertia [main_wing, second_wing]).body.inverse_inertia =
      main_inertia ∧
    (Airplane.new 10000 50000 main_inertia [main_wing, second_wing]).body.inverse_inertia *
      ((Airplane.new 10000 50000 main_inertia [main_wing, second_wing]).body.inertia *
        (⟨1, 0, 0⟩ : vec3 ℚ)) = ⟨2357000361, -402783480, 0⟩ ∧
    (⟨2357000361, -402783480, 0⟩ : vec3 ℚ).x ≠ (⟨1, 0, 0⟩ : vec3 ℚ).x := by
  refine ⟨⟨⟨256608 / 12451700448, 1320 / 12451700448, 0,
            1320 / 12451700448, 48531 / 12451700448, 0,
            0, 0, 1 / 211333⟩, fun v => ?_⟩, rfl, ?_, by norm_num⟩
  · show mat3.mulVec _ (mat3.mulVec _ v) = v
    ext <;> simp [mat3.mulVec, main_inertia, mat3.ofList] <;> ring
  · show mat3.mulVec _ (mat3.mulVec _ _) = _
    ext <;> simp [mat3.mulVec, main_inertia, mat3.ofList, Airplane.new] <;> norm_num

end inertia

/-! ## Airfoil lookup bounds -/

section airfoil_bounds

variable {K : Type} [LinearOrderedField K] [FloorRing K]

/-- C18: for every airfoil table with at least one row and every query angle (also when
`max_alpha <= min_alpha`), the integer index computed by `sample` lies in `[0, N-1]`, so the
lookup is in bounds and the returned pair is the coefficients of some row of the table. -/
theorem sample_index_in_bounds (a : Airfoil K) (alpha : K) (hne : a.data ≠ []) :
    0 ≤ a.sample_index alpha ∧
    a.sample_index alpha ≤ (a.data.length : Int) - 1 ∧
    ∃ (i : Nat) (hi : i < a.data.length),
      a.sample_index alpha = (i : Int) ∧
      a.sample alpha = some ((a.data.get ⟨i, hi⟩).y, (a.data.get ⟨i, hi⟩).z) := by
  obtain ⟨i, hi, hidx, hs⟩ := Airfoil.sample_index_mem a alpha hne
  refine ⟨?_, ?_, i, hi, hidx, hs⟩
  · rw [hidx]
    exact Int.ofNat_nonneg i
  · rw [hidx]
    omega

/-- Witness of C18: the program's table `NACA_0012_data`, queried far outside its range. -/
theorem sample_index_in_bounds_witness :
    (Airfoil.new NACA_0012_data (List.cons_ne_nil _ _)).data ≠ [] ∧
    0 ≤ (Airfoil.new NACA_0012_data (List.cons_ne_nil _ _)).sample_index 1000 ∧
    (Airfoil.new NACA_0012_data (List.cons_ne_nil _ _)).sample_index 1000 ≤
      ((Airfoil.new NACA_0012_data (List.cons_ne_nil _ _)).data.length : Int) - 1 :=
  ⟨List.cons_ne_nil _ _,
   (sample_index_in_bounds (Airfoil.new NACA_0012_data (List.cons_ne_nil _ _)) 1000
      (List.cons_ne_nil _ _)).1,
   (sample_index_in_bounds (Airfoil.new NACA_0012_data (List.cons_ne_nil _ _)) 1000
      (List.cons_ne_nil _ _)).2.1⟩

end airfoil_bounds

/-! ## Lift and drag directions -/

section lift_direction

variable {K : Type} [LinearOrderedField K]

open glm

end lift_direction

section lift_direction_wing

variable {K : Type} [LinearOrderedField K] [FloorRing K]

open glm

end lift_direction_wing

/-! ## Fuel tank -/

section fuel_tank_lemmas

variable {K : Type} [LinearOrderedField K]

theorem std_clamp_mem_Icc (v lo hi : K) (h : lo ≤ hi) :
    lo ≤ std_clamp v lo hi ∧ std_clamp v lo hi ≤ hi := by
  unfold std_clamp
  split_ifs with h1 h2
  · exact ⟨le_rfl, h⟩
  · exact ⟨h, le_rfl⟩
  · exact ⟨not_lt.mp h1, not_lt.mp h2⟩

theorem FuelTank.new_level_mem (capacity_liters initial_liters : K) (hc : 0 ≤ capacity_liters) :
    0 ≤ (FuelTank.new capacity_liters initial_liters).level ∧
    (FuelTank.new capacity_liters initial_liters).level ≤
      (FuelTank.new capacity_liters initial_liters).capacity :=
  std_clamp_mem_Icc initial_liters 0 capacity_liters hc

theorem FuelTank.call_capacity (t : FuelTank K) (c : FuelCall K) :
    (t.call c).capacity = t.capacity := by
  cases c <;> rfl

theorem FuelTank.call_level_mem (t : FuelTank K) (c : FuelCall K) (hl : 0 ≤ c.liters)
    (h0 : 0 ≤ t.level) (h1 : t.level ≤ t.capacity) :
    0 ≤ (t.call c).level ∧ (t.call c).level ≤ (t.call c).capacity := by
  cases c with
  | add_fuel l =>
    have hl0 : 0 ≤ l := hl
    show 0 ≤ std_min t.capacity_liters_ (t.level_liters_ + l) ∧
      std_min t.capacity_liters_ (t.level_liters_ + l) ≤ t.capacity_liters_
    rw [std_min_eq_min]
    exact ⟨le_min (h0.trans h1) (add_nonneg h0 hl0), min_le_left _ _⟩
  | consume_fuel l =>
    have hl0 : 0 ≤ l := hl
    show 0 ≤ t.level_liters_ - std_min t.level_liters_ l ∧
      t.level_liters_ - std_min t.level_liters_ l ≤ t.capacity_liters_
    rw [std_min_eq_min]
    have hm0 : 0 ≤ min t.level_liters_ l := le_min h0 hl0
    have hm1 : min t.level_liters_ l ≤ t.level_liters_ := min_le_left _ _
    have h1c : t.level_liters_ ≤ t.capacity_liters_ := h1
    constructor
    · linarith
    · linarith

theorem FuelTank.run_level_mem (calls : List (FuelCall K)) :
    ∀ t : FuelTank K, (∀ c ∈ calls, 0 ≤ c.liters) → 0 ≤ t.level → t.level ≤ t.capacity →
      0 ≤ (t.run calls).level ∧ (t.run calls).level ≤ (t.run calls).capacity := by
  induction calls with
  | nil => intro t _ h0 h1; exact ⟨h0, h1⟩
  | cons c cs ih =>
    intro t hl h0 h1
    obtain ⟨g0, g1⟩ := FuelTank.call_level_mem t c (hl c (List.mem_cons_self _ _)) h0 h1
    exact ih (t.call c) (fun c1 hc1 => hl c1 (List.mem_cons_of_mem _ hc1)) g0 g1

/-- C20: for every `FuelTank` constructed with `capacity >= 0` (any initial level) and every
sequence of `add_fuel` and `consume_fuel` calls with non-negative amounts, the level after the
sequence (so after each call) is within `[0, capacity]`, and a following `consume_fuel(liters)`
returns `min(level, liters)` and lowers the level by exactly the returned amount. -/
theorem fuel_level_within_capacity (capacity_liters initial_liters : K)
    (calls : List (FuelCall K)) (hc : 0 ≤ capacity_liters)
    (hl : ∀ c ∈ calls, 0 ≤ c.liters) :
    0 ≤ ((FuelTank.new capacity_liters initial_liters).run calls).level ∧
    ((FuelTank.new capacity_liters initial_liters).run calls).level ≤ capacity_liters ∧
    ((FuelTank.new capacity_liters initial_liters).run calls).capacity = capacity_liters ∧
    ∀ liters : K,
      (((FuelTank.new capacity_liters initial_liters).run calls).consume_fuel liters).1 =
        min ((FuelTank.new capacity_liters initial_liters).run calls).level liters ∧
      (((FuelTank.new capacity_liters initial_liters).run calls).consume_fuel liters).2.level =
        ((FuelTank.new capacity_liters initial_liters).run calls).level -
        (((FuelTank.new capacity_liters initial_liters).run calls).consume_fuel liters).1 := by
  have hcap : ∀ (cs : List (FuelCall K)) (t : FuelTank K), (t.run cs).capacity = t.capacity := by
    intro cs
    induction cs with
    | nil => intro t; rfl
    | cons c cs ih => intro t; exact (ih (t.call c)).trans (FuelTank.call_capacity t c)
  obtain ⟨h0, h1⟩ := FuelTank.new_level_mem capacity_liters initial_liters hc
  obtain ⟨g0, g1⟩ := FuelTank.run_level_mem calls _ hl h0 h1
  have hcap1 : ((FuelTank.new capacity_liters initial_liters).run calls).capacity =
      capacity_liters := hcap calls _
  refine ⟨g0, le_of_le_of_eq g1 hcap1, hcap1, fun liters => ⟨?_, rfl⟩⟩
  exact std_min_eq_min _ _

/-- Witness of C20: a tank of capacity `100` constructed with initial level `150`, then
`consume_fuel(30)`, `add_fuel(500)`, `consume_fuel(1000)`. -/
theorem fuel_level_within_capacity_witness :
    (0 : ℚ) ≤ 100 ∧
    (∀ c ∈ [FuelCall.consume_fuel (30 : ℚ), FuelCall.add_fuel 500, FuelCall.consume_fuel 1000],
      0 ≤ c.liters) ∧
    0 ≤ ((FuelTank.new (100 : ℚ) 150).run
      [FuelCall.consume_fuel 30, FuelCall.add_fuel 500, FuelCall.consume_fuel 1000]).level ∧
    ((FuelTank.new (100 : ℚ) 150).run
      [FuelCall.consume_fuel 30, FuelCall.add_fuel 500, FuelCall.consume_fuel 1000]).level
      ≤ 100 :=
  ⟨by norm_num, by simp [FuelCall.liters],
   (fuel_level_within_capacity 100 150 _ (by norm_num) (by simp [FuelCall.liters])).1,
   (fuel_level_within_capacity 100 150 _ (by norm_num) (by simp [FuelCall.liters])).2.1⟩

end fuel_tank_lemmas
